import Mathlib

/-!
Shallow embedding of `src/ipc_debugger/deadlock_detector.py` (class
`DeadlockDetector`).  Python dicts are modelled as association lists with
unique keys (`aget` / `aset` / `adel` below mirror `d[k]`, `d[k] = v` and
`del d[k]`), Python ints as `Int`, `time.time()` as an `Int` parameter
`now` supplied to each operation that reads the clock, and methods that can
`raise` as `Except String`-valued functions.  Threading is out of scope:
every public method runs its whole body under `self._lock`, so each
operation is a sequential state transformer.
-/

namespace IPCDebug

/-- `d[k]` / `d.get(k)` on a Python dict modelled as an association list. -/
def aget {α : Type} : List (String × α) → String → Option α
  | [], _ => none
  | (k', v) :: rest, k => if k' = k then some v else aget rest k

/-- `d[k] = v`: replace the value in place if the key is present (Python
dicts keep unique keys, so at most one entry matches), else append. -/
def aset {α : Type} (m : List (String × α)) (k : String) (v : α) : List (String × α) :=
  if (aget m k).isSome then
    m.map (fun p => if p.1 = k then (k, v) else p)
  else
    m ++ [(k, v)]

/-- `del d[k]` (the source always guards deletions with `k in d`). -/
def adel {α : Type} (m : List (String × α)) (k : String) : List (String × α) :=
  m.filter (fun p => p.1 ≠ k)

/-- One tracked resource: the dict built by `register_resource`
(deadlock_detector.py lines 213-222).  `owner` models *presence of the
dict key* `'owner'`: `register_resource` never creates that key, so the
field is `none` for every resource it makes; only the legacy
single-instance branch of `unregister_process` would ever store one. -/
structure Resource where
  rtype : String
  total_instances : Int
  available_instances : Int
  allocations : List (String × Int)
  waiters : List String
  waiter_timestamps : List (String × Int)
  waiting_for : List (String × Int)
  state : String
  owner : Option (Option String)
  deriving DecidableEq, Repr

/-- One tracked process: the dict built by `register_process` (lines
240-243). -/
structure Process where
  owns : List String
  waiting_for : Option String
  deriving DecidableEq, Repr

/-- The tracker state: `self.resources` and `self.processes`. -/
structure DState where
  resources : List (String × Resource)
  processes : List (String × Process)
  deriving DecidableEq, Repr

/-- The empty tracker (`__init__`). -/
def initState : DState := { resources := [], processes := [] }

/-- `register_resource` (lines 204-232).  Raises when `instances <= 0`,
returns `False` when the id already exists, else creates the resource. -/
def registerResource (s : DState) (resource_id resource_type : String) (instances : Int) :
    Except String (Bool × DState) :=
  if instances ≤ 0 then .error "Number of instances must be positive"
  else if (aget s.resources resource_id).isSome then .ok (false, s)
  else
    let resource : Resource :=
      { rtype := resource_type
        total_instances := instances
        available_instances := instances
        allocations := []
        waiters := []
        waiter_timestamps := []
        waiting_for := []
        state := "free"
        owner := none }
    .ok (true, { s with resources := aset s.resources resource_id resource })

/-- `register_process` (lines 234-251). -/
def registerProcess (s : DState) (process_id : String) : Bool × DState :=
  if (aget s.processes process_id).isSome then (false, s)
  else
    let process : Process := { owns := [], waiting_for := none }
    (true, { s with processes := aset s.processes process_id process })

/-- `request_resource` (lines 253-316).  Raises on a non-positive count,
fails on unknown ids or an already-waiting process, grants when enough
instances are available, and otherwise queues the process as a waiter. -/
def requestResource (s : DState) (process_id resource_id : String) (instances : Int)
    (now : Int) : Except String (Bool × DState) :=
  if instances ≤ 0 then .error "Number of instances requested must be positive"
  else
    match aget s.processes process_id, aget s.resources resource_id with
    | some process, some resource =>
      if process.waiting_for.isSome then .ok (false, s)
      else if resource.available_instances ≥ instances then
        let process :=
          if resource_id ∈ process.owns then process
          else { process with owns := process.owns ++ [resource_id] }
        let current_allocation := (aget resource.allocations process_id).getD 0
        let resource := { resource with
          allocations := aset resource.allocations process_id (current_allocation + instances)
          available_instances := resource.available_instances - instances }
        let resource := { resource with
          state := if resource.available_instances = 0 then "fully_allocated"
                   else "partially_allocated" }
        .ok (true, { s with
          processes := aset s.processes process_id process
          resources := aset s.resources resource_id resource })
      else
        let resource :=
          if process_id ∈ resource.waiters then resource
          else { resource with
            waiters := resource.waiters ++ [process_id]
            waiter_timestamps := aset resource.waiter_timestamps process_id now
            waiting_for := aset resource.waiting_for process_id instances }
        let process := { process with waiting_for := some resource_id }
        .ok (false, { s with
          processes := aset s.processes process_id process
          resources := aset s.resources resource_id resource })
    | _, _ => .ok (false, s)

/-- The `resource_acquired_after_wait` log entry emitted when a waiter is
promoted (lines 391-398): the fields that depend on the promotion. -/
structure PromEvent where
  process_id : String
  instances : Int
  wait_time : Int
  deriving DecidableEq, Repr

/-- The requested amount recorded for a waiter:
`resource['waiting_for'].get(waiter_id, 1)` (line 367). -/
def neededOf (resource : Resource) (waiter_id : String) : Int :=
  (aget resource.waiting_for waiter_id).getD 1

/-- Body of a successful promotion (lines 371-398): remove the waiter from
the three waiter structures, allocate (note: the source *overwrites* the
waiter's allocation entry rather than adding to it), mark it not waiting,
and build the event.  `wait_time` is computed from `waiter_timestamps`
*after* the entry was deleted (lines 373-374 before 387-389), exactly as
in the source. -/
def promotionStep (resource : Resource) (wait_process : Process)
    (resource_id waiter_id : String) (instances_needed now : Int) :
    Resource × Process × PromEvent :=
  let resource := { resource with
    waiters := resource.waiters.erase waiter_id
    waiter_timestamps := adel resource.waiter_timestamps waiter_id
    waiting_for := adel resource.waiting_for waiter_id }
  let resource := { resource with
    allocations := aset resource.allocations waiter_id instances_needed
    available_instances := resource.available_instances - instances_needed }
  let wait_process := { wait_process with
    owns := if resource_id ∈ wait_process.owns then wait_process.owns
            else wait_process.owns ++ [resource_id]
    waiting_for := none }
  let wait_time :=
    match aget resource.waiter_timestamps waiter_id with
    | some ts => now - ts
    | none => 0
  (resource, wait_process,
   { process_id := waiter_id, instances := instances_needed, wait_time := wait_time })

/-- The waiter-promotion scan of `release_resource` (lines 361-401):
iterate over a copy of the waiter list in arrival order, skip waiters that
are unregistered or no longer waiting on this resource, promote the first
one whose recorded request fits into `available_instances`, then stop
(`break` at line 401). -/
def promoteWaiters (processes : List (String × Process)) (resource : Resource)
    (resource_id : String) (now : Int) :
    List String → Resource × List (String × Process) × Option PromEvent
  | [] => (resource, processes, none)
  | waiter_id :: rest =>
    match aget processes waiter_id with
    | none => promoteWaiters processes resource resource_id now rest
    | some wait_process =>
      if wait_process.waiting_for = some resource_id then
        let instances_needed := neededOf resource waiter_id
        if resource.available_instances ≥ instances_needed then
          let r := promotionStep resource wait_process resource_id waiter_id instances_needed now
          (r.1, aset processes waiter_id r.2.1, some r.2.2)
        else promoteWaiters processes resource resource_id now rest
      else promoteWaiters processes resource resource_id now rest

/-- `release_resource` (lines 318-411).  Note that the source has *no*
positivity check on `instances`: an explicit non-positive count falls into
the `else` branch of line 337 and is released as-is (a negative count
therefore *increases* the allocation and *decreases* availability).  The
returned `Option PromEvent` is the `resource_acquired_after_wait` event,
if a waiter was promoted. -/
def releaseResource (s : DState) (process_id resource_id : String)
    (instances : Option Int) (now : Int) :
    Except String (Bool × DState × Option PromEvent) :=
  match aget s.processes process_id, aget s.resources resource_id with
  | some process, some resource =>
    if resource_id ∉ process.owns then .ok (false, s, none)
    else
      let current_allocation := (aget resource.allocations process_id).getD 0
      if current_allocation = 0 then .ok (false, s, none)
      else
        let instances_to_release :=
          match instances with
          | none => current_allocation
          | some n => if n ≥ current_allocation then current_allocation else n
        let resource := { resource with
          allocations := aset resource.allocations process_id
            (current_allocation - instances_to_release)
          available_instances := resource.available_instances + instances_to_release }
        let rp : Resource × Process :=
          if current_allocation - instances_to_release = 0 then
            ({ resource with allocations := adel resource.allocations process_id },
             { process with owns := process.owns.erase resource_id })
          else (resource, process)
        let resource := rp.1
        let processes := aset s.processes process_id rp.2
        let step :=
          if resource.waiters.isEmpty then (resource, processes, none)
          else promoteWaiters processes resource resource_id now resource.waiters
        let resource := step.1
        let resource := { resource with
          state := if resource.available_instances = resource.total_instances then "free"
                   else if resource.available_instances = 0 then "fully_allocated"
                   else "partially_allocated" }
        .ok (true,
          { s with processes := step.2.1, resources := aset s.resources resource_id resource },
          step.2.2)
  | _, _ => .ok (false, s, none)

/-- `set_resource_owner` (lines 679-729).  Every resource this model can
contain was created by `register_resource` and therefore carries an
`allocations` key, so the `'allocations' in resource` test (line 689) is
true and the legacy single-instance branch (lines 704-715) is dead code.
The source has no positivity check on `instances`. -/
def setResourceOwner (s : DState) (resource_id process_id : String) (instances : Int) :
    Except String (Bool × DState) :=
  match aget s.resources resource_id, aget s.processes process_id with
  | some resource, some process =>
    if resource.available_instances < instances then .ok (false, s)
    else
      let current_allocation := (aget resource.allocations process_id).getD 0
      let resource := { resource with
        allocations := aset resource.allocations process_id (current_allocation + instances)
        available_instances := resource.available_instances - instances }
      let resource := { resource with
        state := if resource.available_instances = 0 then "fully_allocated"
                 else "partially_allocated" }
      let process :=
        if resource_id ∈ process.owns then process
        else { process with owns := process.owns ++ [resource_id] }
      .ok (true, { s with
        resources := aset s.resources resource_id resource
        processes := aset s.processes process_id process })
  | _, _ => .ok (false, s)

/-- `add_waiting_process` (lines 731-755).  It appends to `waiters` and
records a timestamp, but — unlike `request_resource` — records *no* entry
in the resource's per-waiter `waiting_for` request-amount map. -/
def addWaitingProcess (s : DState) (resource_id process_id : String) (now : Int) :
    Except String (Bool × DState) :=
  match aget s.resources resource_id, aget s.processes process_id with
  | some resource, some process =>
    let resource :=
      if process_id ∈ resource.waiters then resource
      else { resource with
        waiters := resource.waiters ++ [process_id]
        waiter_timestamps := aset resource.waiter_timestamps process_id now }
    let process := { process with waiting_for := some resource_id }
    .ok (true, { s with
      resources := aset s.resources resource_id resource
      processes := aset s.processes process_id process })
  | _, _ => .ok (false, s)

/-- `clear_all` (lines 757-769). -/
def clearAll (_s : DState) : Bool × DState :=
  (true, { resources := [], processes := [] })

/-- The processes holding the resource `p_id` is blocked on
(lines 139-143): every *other* process whose `owns` list contains it. -/
def waitForOwners (processes : List (String × Process)) (p_id wait_resource : String) :
    List String :=
  (processes.filter (fun q => q.2.owns.contains wait_resource && q.1 != p_id)).map (·.1)

/-- The wait-for graph (lines 132-148): for each waiting process, an entry
mapping it to the owners of the resource it waits on, added only when that
owner list is non-empty. -/
def buildWaitFor (processes : List (String × Process)) : List (String × List String) :=
  processes.foldl
    (fun wf p =>
      match p.2.waiting_for with
      | some wait_resource =>
        let allocating := waitForOwners processes p.1 wait_resource
        if allocating.isEmpty then wf
        else aset wf p.1 ((aget wf p.1).getD [] ++ allocating)
      | none => wf)
    []

/-- `find_cycle` (lines 175-193), the recursive DFS of the fallback
detector.  `path` and `visited` are threaded explicitly (in the source
`path` is appended to before the neighbor loop and popped after it, and
`visited` only ever grows); the neighbor loop with its early `return` on a
found cycle is a fold that keeps the first `some`.  `fuel` bounds the
recursion depth; since every recursive call is on a node not yet in
`visited` and all nodes are process ids, a fuel of one more than the
number of processes is never exhausted. -/
def findCycle (waitFor : List (String × List String)) :
    Nat → String → List String → List String → Option (List String) × List String
  | 0, _, _, visited => (none, visited)
  | fuel + 1, node, path, visited =>
    if node ∈ path then
      (some (path.drop (path.indexOf node)), visited)
    else if node ∈ visited then
      (none, visited)
    else
      ((aget waitFor node).getD []).foldl
        (fun acc neighbor =>
          match acc with
          | (some cycle, vis) => (some cycle, vis)
          | (none, vis) => findCycle waitFor fuel neighbor (path ++ [node]) vis)
        (none, node :: visited)

/-- The fallback cycle scan (lines 195-201): start a DFS from every
process with a fresh `visited` set and collect the cycles found. -/
def findCycles (processes : List (String × Process))
    (waitFor : List (String × List String)) : List (List String) :=
  processes.foldl
    (fun deadlocks p =>
      match (findCycle waitFor (processes.length + 1) p.1 [] []).1 with
      | some cycle => deadlocks ++ [cycle]
      | none => deadlocks)
    []

/-- `_detect_deadlocks_from_snapshot` on the live maps, i.e. the body of
`detect_deadlocks` (lines 95-202, 413-416).  The allocation/need/available
matrices of lines 107-130 are computed but never used by either detection
branch, and on the live maps every dict key they read exists, so they are
omitted.  The `networkx` branch (lines 150-170) runs only when that
optional third-party import succeeded; this models the repository's own
fallback algorithm (lines 172-202), which is always present. -/
def detectDeadlocks (s : DState) : List (List String) :=
  if s.resources.isEmpty || s.processes.isEmpty then []
  else findCycles s.processes (buildWaitFor s.processes)

/-- The per-resource copy the background monitor takes under the lock
(lines 67-73): only the `'owner'`, `'waiters'` and `'state'` keys. -/
structure SnapResource where
  owner : Option String
  waiters : List String
  state : String
  deriving DecidableEq, Repr

/-- One resource entry of the monitor snapshot (lines 69-73).
`r_info['owner']` raises `KeyError` when the key is absent — which it is
for every resource `register_resource` creates. -/
def snapshotResource (r : Resource) : Except String SnapResource :=
  match r.owner with
  | none => .error "KeyError: owner"
  | some ow => .ok { owner := ow, waiters := r.waiters, state := r.state }

/-- The snapshot taken by `_monitor_deadlocks` under the lock
(lines 64-80). -/
def monitorSnapshot (s : DState) :
    Except String (List (String × SnapResource) × List (String × Process)) := do
  let rs ← s.resources.mapM (fun p => do
    let sr ← snapshotResource p.2
    pure (p.1, sr))
  pure (rs, s.processes.map (fun p => (p.1, { owns := p.2.owns, waiting_for := p.2.waiting_for })))

/-- `_detect_deadlocks_from_snapshot` applied to the monitor's copy.  With
at least one resource and one process it reaches line 112, which reads
`resources[r_id]['allocations']` — a key the copy of lines 69-73 does not
contain — and raises `KeyError`. -/
def detectFromMonitorSnapshot (resources : List (String × SnapResource))
    (processes : List (String × Process)) : Except String (List (List String)) :=
  if resources.isEmpty || processes.isEmpty then .ok []
  else .error "KeyError: allocations"

/-- One iteration of the background monitor loop (lines 61-93): take the
snapshot, then run detection on it. -/
def monitorIteration (s : DState) : Except String (List (List String)) := do
  let snap ← monitorSnapshot s
  detectFromMonitorSnapshot snap.1 snap.2

/-- `Queue(maxsize=1000)` (line 14). -/
def logCapacity : Nat := 1000

/-- `_log_event` (lines 529-540) as a function on the queue contents
(front of the list = oldest entry): `put_nowait` succeeds when the queue
is below capacity; otherwise the oldest entry is removed with
`get_nowait` and the new one appended.  No branch raises or blocks. -/
def logPut {α : Type} (q : List α) (e : α) : List α :=
  if q.length < logCapacity then q ++ [e] else q.drop 1 ++ [e]

/-! Invariants stated by the specification, and concrete operation
sequences used to check them.  The `afterOp` / `afterRel` helpers chain
operations; their `.error` default is never reached in the sequences
below (each step's return value is asserted by the theorems). -/

/-- Spec §3: `available_instances + Σ(allocations) = total_instances` and
`0 ≤ available_instances ≤ total_instances`. -/
def resourceInvariant (r : Resource) : Prop :=
  r.available_instances + (r.allocations.map (·.2)).sum = r.total_instances ∧
  0 ≤ r.available_instances ∧ r.available_instances ≤ r.total_instances

/-- Spec §3 global invariant, wait side: `process.waiting_for == r ⇔ p ∈
resource.waiters ⇔ p ∈ resource.waiting_for-map`. -/
def waitMirror (s : DState) : Prop :=
  ∀ p ∈ s.processes, ∀ r ∈ s.resources,
    ((p.2.waiting_for = some r.1) ↔ p.1 ∈ r.2.waiters) ∧
    (p.1 ∈ r.2.waiters ↔ (aget r.2.waiting_for p.1).isSome)

instance (r : Resource) : Decidable (resourceInvariant r) := by
  unfold resourceInvariant; infer_instance

instance (s : DState) : Decidable (waitMirror s) := by
  unfold waitMirror; infer_instance

/-- A waiter entry that is mirrored on the process side: the process is
registered and waiting on this resource (the two skip tests of the
promotion scan, lines 364-366). -/
def waiterOk (processes : List (String × Process)) (resource_id waiter_id : String) : Bool :=
  match aget processes waiter_id with
  | some wp => wp.waiting_for == some resource_id
  | none => false

def afterOp (x : Except String (Bool × DState)) : DState :=
  match x with
  | .ok r => r.2
  | .error _ => initState

def afterRel (x : Except String (Bool × DState × Option PromEvent)) : DState :=
  match x with
  | .ok r => r.2.1
  | .error _ => initState

/-- C1 failing sequence: a 3-instance resource, `P1` takes 2, `P2` takes
1, `P1` queues for 1 more, `P2` releases — the promotion then overwrites
`P1`'s allocation of 2 with the newly granted 1 (line 379). -/
def c1s1 : DState := afterOp (registerResource initState "R" "lock" 3)
def c1s2 : DState := (registerProcess c1s1 "P1").2
def c1s3 : DState := (registerProcess c1s2 "P2").2
def c1s4 : DState := afterOp (requestResource c1s3 "P1" "R" 2 1)
def c1s5 : DState := afterOp (requestResource c1s4 "P2" "R" 1 2)
def c1s6 : DState := afterOp (requestResource c1s5 "P1" "R" 1 3)
def c1s7 : DState := afterRel (releaseResource c1s6 "P2" "R" none 4)

/-- FIFO scenario (C2 witness, spec §8): 1-instance resource held by `A`,
waiters `B` (queued at time 5) then `C` (queued at time 7). -/
def fifoS1 : DState := afterOp (registerResource initState "R" "lock" 1)
def fifoS2 : DState := (registerProcess fifoS1 "A").2
def fifoS3 : DState := (registerProcess fifoS2 "B").2
def fifoS4 : DState := (registerProcess fifoS3 "C").2
def fifoS5 : DState := afterOp (requestResource fifoS4 "A" "R" 1 1)
def fifoS6 : DState := afterOp (requestResource fifoS5 "B" "R" 1 5)
def fifoS7 : DState := afterOp (requestResource fifoS6 "C" "R" 1 7)

/-- The resource record of `fifoS7`. -/
def fifoRes : Resource :=
  { rtype := "lock"
    total_instances := 1
    available_instances := 0
    allocations := [("A", 1)]
    waiters := ["B", "C"]
    waiter_timestamps := [("B", 5), ("C", 7)]
    waiting_for := [("B", 1), ("C", 1)]
    state := "fully_allocated"
    owner := none }

/-- Process `A`'s record in `fifoS7`. -/
def fifoProcA : Process := { owns := ["R"], waiting_for := none }

/-- C3 scenario: `P1` owns `R1` and waits on `R2`, `P2` owns `R2` and
waits on `R1`, built through the public request protocol. -/
def c3s1 : DState := afterOp (registerResource initState "R1" "lock" 1)
def c3s2 : DState := afterOp (registerResource c3s1 "R2" "lock" 1)
def c3s3 : DState := (registerProcess c3s2 "P1").2
def c3s4 : DState := (registerProcess c3s3 "P2").2
def c3s5 : DState := afterOp (requestResource c3s4 "P1" "R1" 1 1)
def c3s6 : DState := afterOp (requestResource c3s5 "P2" "R2" 1 2)
def c3s7 : DState := afterOp (requestResource c3s6 "P1" "R2" 1 3)
def c3s8 : DState := afterOp (requestResource c3s7 "P2" "R1" 1 4)

/-- C4 failing state: one registered resource and one registered process. -/
def c4s : DState := (registerProcess (afterOp (registerResource initState "R1" "lock" 1)) "P1").2

/-- C5 base state: `R` has 3 instances, `P` holds 2 of them. -/
def c5base : DState :=
  afterOp (requestResource ((registerProcess (afterOp (registerResource initState "R" "lock" 3)) "P").2)
    "P" "R" 2 1)
def c5afterNeg : DState := afterRel (releaseResource c5base "P" "R" (some (-1)) 10)

/-- C5 second failing input: a freshly registered free resource and a
process that holds nothing. -/
def c5fresh : DState :=
  (registerProcess (afterOp (registerResource initState "R" "lock" 3)) "P").2
def c5afterZero : DState := afterOp (setResourceOwner c5fresh "R" "P" 0)

/-- C6 counterexample state: `P` added as a waiter of `R` through
`add_waiting_process`. -/
def c6base : DState := (registerProcess (afterOp (registerResource initState "R" "lock" 1)) "P").2
def c6after : DState := afterOp (addWaitingProcess c6base "R" "P" 3)

/-- C8 scenario: `B` queued on `R` at time 5; `A` releases at time 9, so
the elapsed wait is 4, but the emitted event reports 0. -/
def c8s1 : DState := afterOp (registerResource initState "R" "lock" 1)
def c8s2 : DState := (registerProcess c8s1 "A").2
def c8s3 : DState := (registerProcess c8s2 "B").2
def c8s4 : DState := afterOp (requestResource c8s3 "A" "R" 1 1)
def c8s5 : DState := afterOp (requestResource c8s4 "B" "R" 1 5)
def c8after : DState := afterRel (releaseResource c8s5 "A" "R" none 9)

/-! ### Lemmas about the dict model -/

theorem aget_cons {α : Type} (p : String × α) (m : List (String × α)) (k : String) :
    aget (p :: m) k = if p.1 = k then some p.2 else aget m k := rfl

theorem aget_map_replace {α : Type} (m : List (String × α)) (k : String) (v : α)
    (h : (aget m k).isSome) :
    aget (m.map (fun p => if p.1 = k then (k, v) else p)) k = some v := by
  induction m with
  | nil => simp [aget] at h
  | cons p m ih =>
    rw [List.map_cons]
    by_cases hk : p.1 = k
    · rw [if_pos hk, aget_cons]
      simp
    · rw [if_neg hk, aget_cons, if_neg hk]
      rw [aget_cons, if_neg hk] at h
      exact ih h

theorem aget_append_single {α : Type} (m : List (String × α)) (k : String) (v : α)
    (h : aget m k = none) : aget (m ++ [(k, v)]) k = some v := by
  induction m with
  | nil => simp [aget]
  | cons p m ih =>
    by_cases hk : p.1 = k
    · rw [aget_cons, if_pos hk] at h; exact absurd h (by simp)
    · rw [aget_cons, if_neg hk] at h
      rw [List.cons_append, aget_cons, if_neg hk]
      exact ih h

theorem aget_aset_self {α : Type} (m : List (String × α)) (k : String) (v : α) :
    aget (aset m k v) k = some v := by
  unfold aset
  by_cases h : (aget m k).isSome
  · rw [if_pos h]; exact aget_map_replace m k v h
  · rw [if_neg h]
    exact aget_append_single m k v (Option.not_isSome_iff_eq_none.mp h)

theorem aget_map_replace_ne {α : Type} (m : List (String × α)) (k k' : String) (v : α)
    (h : k' ≠ k) :
    aget (m.map (fun p => if p.1 = k then (k, v) else p)) k' = aget m k' := by
  induction m with
  | nil => rfl
  | cons p m ih =>
    rw [List.map_cons]
    by_cases hk : p.1 = k
    · have hka : ¬ (k = k') := fun hc => h hc.symm
      have hpk : ¬ (p.1 = k') := fun hc => h (by rw [← hc, hk])
      rw [if_pos hk, aget_cons, aget_cons, if_neg hka, if_neg hpk]
      exact ih
    · rw [if_neg hk, aget_cons, aget_cons]
      by_cases hk' : p.1 = k'
      · rw [if_pos hk', if_pos hk']
      · rw [if_neg hk', if_neg hk']
        exact ih

theorem aget_append_single_ne {α : Type} (m : List (String × α)) (k k' : String) (v : α)
    (h : k' ≠ k) : aget (m ++ [(k, v)]) k' = aget m k' := by
  induction m with
  | nil => simp [aget, Ne.symm h]
  | cons p m ih =>
    rw [List.cons_append, aget_cons, aget_cons]
    by_cases hk' : p.1 = k'
    · rw [if_pos hk', if_pos hk']
    · rw [if_neg hk', if_neg hk']
      exact ih

theorem aget_aset_ne {α : Type} (m : List (String × α)) (k k' : String) (v : α)
    (h : k' ≠ k) : aget (aset m k v) k' = aget m k' := by
  unfold aset
  by_cases hs : (aget m k).isSome
  · rw [if_pos hs]; exact aget_map_replace_ne m k k' v h
  · rw [if_neg hs]; exact aget_append_single_ne m k k' v h

theorem adel_cons {α : Type} (p : String × α) (m : List (String × α)) (k : String) :
    adel (p :: m) k = if p.1 = k then adel m k else p :: adel m k := by
  unfold adel
  by_cases hk : p.1 = k <;> simp [hk]

theorem aget_adel_self {α : Type} (m : List (String × α)) (k : String) :
    aget (adel m k) k = none := by
  induction m with
  | nil => rfl
  | cons p m ih =>
    rw [adel_cons]
    by_cases hk : p.1 = k
    · rw [if_pos hk]; exact ih
    · rw [if_neg hk, aget_cons, if_neg hk]; exact ih

theorem aget_adel_ne {α : Type} (m : List (String × α)) (k k' : String)
    (h : k' ≠ k) : aget (adel m k) k' = aget m k' := by
  induction m with
  | nil => rfl
  | cons p m ih =>
    rw [adel_cons]
    by_cases hk : p.1 = k
    · have hpk : ¬ (p.1 = k') := fun hc => h (by rw [← hc, hk])
      rw [if_pos hk, aget_cons, if_neg hpk]
      exact ih
    · rw [if_neg hk, aget_cons, aget_cons]
      by_cases hk' : p.1 = k'
      · rw [if_pos hk', if_pos hk']
      · rw [if_neg hk', if_neg hk']
        exact ih

/-! ### Claim theorems -/

/-- C1: the accounting invariant `available_instances + Σ allocations =
total_instances` does NOT survive every valid operation sequence.  With a
3-instance resource, `P1` holding 2 and `P2` holding 1, `P1` queues for 1
more; when `P2` releases, the promotion at line 379 overwrites `P1`'s
allocation entry (2) with the newly granted request (1) instead of adding
to it, leaving `0 + 1 ≠ 3`.  Every step of the sequence below is a valid
call and returns its documented value. -/
theorem c1_promotion_overwrites_allocation :
    registerResource initState "R" "lock" 3 = .ok (true, c1s1) ∧
    registerProcess c1s1 "P1" = (true, c1s2) ∧
    registerProcess c1s2 "P2" = (true, c1s3) ∧
    requestResource c1s3 "P1" "R" 2 1 = .ok (true, c1s4) ∧
    requestResource c1s4 "P2" "R" 1 2 = .ok (true, c1s5) ∧
    requestResource c1s5 "P1" "R" 1 3 = .ok (false, c1s6) ∧
    releaseResource c1s6 "P2" "R" none 4 =
      .ok (true, c1s7, some { process_id := "P1", instances := 1, wait_time := 0 }) ∧
    ¬ (∀ r ∈ c1s7.resources, resourceInvariant r.2) := by
  refine ⟨rfl, rfl, rfl, rfl, rfl, rfl, rfl, ?_⟩
  decide

/-- C3 counterexample: in the state where `P1` owns `R1` and waits on
`R2` while `P2` owns `R2` and waits on `R1`, `detect_deadlocks` (the
repository's own fallback detector) reports the single deadlock once per
member process — two cycles, not exactly one. -/
theorem c3_two_rotations_counterexample :
    detectDeadlocks c3s8 = [["P1", "P2"], ["P2", "P1"]] ∧
    (detectDeadlocks c3s8).length ≠ 1 := by
  refine ⟨rfl, ?_⟩
  decide

/-- C4: with one registered resource and one registered process, the
background monitor's iteration hits an error branch: its per-resource
copy reads `r_info['owner']` (line 70), a key `register_resource` never
creates, so the snapshot raises `KeyError` (and even with that key the
copy omits `allocations`/`available_instances`/`waiting_for`, which
`_detect_deadlocks_from_snapshot` reads at lines 112-130).  Direct
detection on the same state returns without error. -/
theorem c4_monitor_snapshot_keyerror :
    (aget c4s.resources "R1").isSome ∧ (aget c4s.processes "P1").isSome ∧
    monitorIteration c4s = .error "KeyError: owner" ∧
    detectDeadlocks c4s = [] := by
  refine ⟨rfl, rfl, rfl, rfl⟩

/-- C5: `release_resource` and `set_resource_owner` have no positivity
check.  `release_resource(P, R, -1)` returns `True` and mutates state
(allocation 2 → 3, availability 1 → 0); `set_resource_owner(R, P, 0)` on a
free resource returns `True` and mutates state (it files a zero
allocation entry, appends `R` to `owns` and flips the state string to
`partially_allocated`).  Neither raises. -/
theorem c5_nonpositive_count_not_rejected :
    releaseResource c5base "P" "R" (some (-1)) 10 = .ok (true, c5afterNeg, none) ∧
    (aget c5afterNeg.resources "R").map
      (fun r => (r.available_instances, aget r.allocations "P")) = some (0, some 3) ∧
    c5afterNeg ≠ c5base ∧
    setResourceOwner c5fresh "R" "P" 0 = .ok (true, c5afterZero) ∧
    (aget c5afterZero.resources "R").map
      (fun r => (r.state, aget r.allocations "P")) = some ("partially_allocated", some 0) ∧
    c5afterZero ≠ c5fresh := by
  refine ⟨rfl, rfl, ?_, rfl, rfl, ?_⟩ <;> decide

/-- C6 counterexample: `add_waiting_process` records the waiter in
`waiters` and `waiter_timestamps` but not in the resource's per-waiter
`waiting_for` request-amount map, so the spec's three-way wait mirror is
already false after one call on a fresh process. -/
theorem c6_wait_mirror_counterexample :
    addWaitingProcess c6base "R" "P" 3 = .ok (true, c6after) ∧
    ¬ waitMirror c6after := by
  refine ⟨rfl, ?_⟩
  decide

/-- C8: the promotion deletes the waiter's entry from
`waiter_timestamps` (lines 373-374) before computing `wait_time` from it
(lines 387-389), so the `resource_acquired_after_wait` event always
reports `wait_time = 0`.  Here `B` was queued at time 5 and promoted at
time 9 — an elapsed wait of 4 — yet the event says 0. -/
theorem c8_wait_time_reported_zero :
    (aget c8s5.resources "R").map (fun r => aget r.waiter_timestamps "B") =
      some (some 5) ∧
    releaseResource c8s5 "A" "R" none 9 =
      .ok (true, c8after, some { process_id := "B", instances := 1, wait_time := 0 }) ∧
    (9 : Int) - 5 ≠ 0 := by
  refine ⟨rfl, rfl, ?_⟩
  decide

/-- Running the bounded enqueue over any event sequence from any queue
that respects the capacity yields the suffix of the combined sequence
that fits, in order. -/
theorem foldl_logPut_eq {α : Type} (es : List α) :
    ∀ q : List α, q.length ≤ logCapacity →
      List.foldl logPut q es = (q ++ es).drop (q.length + es.length - logCapacity) := by
  induction es with
  | nil =>
    intro q hq
    simp [Nat.sub_eq_zero_of_le hq]
  | cons e es ih =>
    intro q hq
    have hstep : logPut q e = if q.length < logCapacity then q ++ [e] else q.drop 1 ++ [e] := rfl
    rw [List.foldl_cons, hstep]
    by_cases hlt : q.length < logCapacity
    · rw [if_pos hlt]
      rw [ih (q ++ [e]) (by simpa using hlt)]
      have harr : (q ++ [e]).length + es.length = q.length + (e :: es).length := by
        simp; omega
      rw [List.append_assoc, List.singleton_append, harr]
    · rw [if_neg hlt]
      have hq1000 : q.length = logCapacity := le_antisymm hq (not_lt.mp hlt)
      have hpos : logCapacity > 0 := by norm_num [logCapacity]
      rw [ih (q.drop 1 ++ [e]) (by simp [hq1000]; omega)]
      obtain ⟨a, q', rfl⟩ : ∃ a q', q = a :: q' := by
        cases q with
        | nil => simp [logCapacity] at hq1000
        | cons a q' => exact ⟨a, q', rfl⟩
      have h1 : ((a :: q').drop 1 ++ [e]).length + es.length - logCapacity = es.length := by
        simp at hq1000 ⊢; omega
      have h2 : (a :: q').length + (e :: es).length - logCapacity = es.length + 1 := by
        simp at hq1000 ⊢; omega
      rw [h1, h2]
      simp [List.append_assoc]

/-- C9: enqueueing through the drop-oldest bounded log (a total function:
no branch of `_log_event` raises or blocks) leaves, after more than
`logCapacity` enqueues, exactly the `logCapacity` most recent entries in
FIFO order. -/
theorem c9_log_bounded_fifo {α : Type} (es : List α) (h : logCapacity < es.length) :
    List.foldl logPut ([] : List α) es = es.drop (es.length - logCapacity) ∧
    (List.foldl logPut ([] : List α) es).length = logCapacity := by
  have he := foldl_logPut_eq es [] (by simp)
  simp only [List.nil_append, List.length_nil, Nat.zero_add] at he
  refine ⟨he, ?_⟩
  rw [he, List.length_drop]
  omega

/-- C9 witness: 1001 enqueues retain entries 1..1000. -/
theorem c9_log_bounded_fifo_witness :
    logCapacity < (List.range 1001).length ∧
    List.foldl logPut ([] : List Nat) (List.range 1001) =
      (List.range 1001).drop ((List.range 1001).length - logCapacity) := by
  refine ⟨by simp [logCapacity], (c9_log_bounded_fifo (List.range 1001) (by simp [logCapacity])).1⟩

/-- C7: every precondition failure returns the boolean failure value with
the state unchanged and raises nothing: `request_resource` on an unknown
process or resource id or an already-waiting process; `release_resource`
by a process that does not hold the resource; `register_resource` /
`register_process` on an existing id.  (The positivity hypotheses keep the
call out of the invalid-argument error class, which raises by design.) -/
theorem c7_precondition_failures_no_mutation :
    (∀ (s : DState) (pid rid : String) (n now : Int), 0 < n →
      (aget s.processes pid = none ∨ aget s.resources rid = none ∨
        (∃ proc, aget s.processes pid = some proc ∧ proc.waiting_for.isSome)) →
      requestResource s pid rid n now = .ok (false, s)) ∧
    (∀ (s : DState) (pid rid : String) (ins : Option Int) (now : Int) (proc : Process),
      aget s.processes pid = some proc → rid ∉ proc.owns →
      releaseResource s pid rid ins now = .ok (false, s, none)) ∧
    (∀ (s : DState) (rid ty : String) (n : Int), 0 < n →
      (aget s.resources rid).isSome →
      registerResource s rid ty n = .ok (false, s)) ∧
    (∀ (s : DState) (pid : String), (aget s.processes pid).isSome →
      registerProcess s pid = (false, s)) := by
  refine ⟨?_, ?_, ?_, ?_⟩
  · intro s pid rid n now hn hfail
    unfold requestResource
    rw [if_neg (not_le.mpr hn)]
    rcases hfail with h | h | ⟨proc, hp, hw⟩
    · rw [h]
    · rw [h]
      cases aget s.processes pid <;> rfl
    · rw [hp]
      cases hres : aget s.resources rid
      · rfl
      · simp [hw]
  · intro s pid rid ins now proc hp howns
    unfold releaseResource
    rw [hp]
    cases hres : aget s.resources rid
    · rfl
    · simp [howns]
  · intro s rid ty n hn hex
    unfold registerResource
    rw [if_neg (not_le.mpr hn), if_pos hex]
  · intro s pid hex
    unfold registerProcess
    rw [if_pos hex]

/-- C7 witness: unknown process id, already-waiting process, release of a
resource not held, and double registration, each on a concrete state. -/
theorem c7_precondition_failures_no_mutation_witness :
    requestResource c4s "Q" "R1" 1 0 = .ok (false, c4s) ∧
    requestResource c6after "P" "R" 1 9 = .ok (false, c6after) ∧
    releaseResource c4s "P1" "R1" none 0 = .ok (false, c4s, none) ∧
    registerResource c4s "R1" "lock" 1 = .ok (false, c4s) ∧
    registerProcess c4s "P1" = (false, c4s) :=
  ⟨c7_precondition_failures_no_mutation.1 c4s "Q" "R1" 1 0 (by decide) (Or.inl rfl),
   c7_precondition_failures_no_mutation.1 c6after "P" "R" 1 9 (by decide)
     (Or.inr (Or.inr ⟨{ owns := [], waiting_for := some "R" }, rfl, rfl⟩)),
   c7_precondition_failures_no_mutation.2.1 c4s "P1" "R1" none 0
     { owns := [], waiting_for := none } rfl (by decide),
   c7_precondition_failures_no_mutation.2.2.1 c4s "R1" "lock" 1 (by decide) rfl,
   c7_precondition_failures_no_mutation.2.2.2 c4s "P1" rfl⟩

/-- C10: `set_resource_owner` with fewer available instances than
requested fails with `False` and leaves the state untouched
(line 691-692 returns before any mutation). -/
theorem c10_set_owner_insufficient_available (s : DState) (rid pid : String)
    (res : Resource) (proc : Process) (n : Int)
    (hr : aget s.resources rid = some res) (hp : aget s.processes pid = some proc)
    (hlt : res.available_instances < n) :
    setResourceOwner s rid pid n = .ok (false, s) := by
  unfold setResourceOwner
  rw [hr, hp]
  simp [hlt]

/-- Normal form of a successful `add_waiting_process`. -/
theorem addWaitingProcess_eq (s : DState) (rid pid : String) (now : Int)
    (res : Resource) (proc : Process)
    (hr : aget s.resources rid = some res) (hp : aget s.processes pid = some proc) :
    addWaitingProcess s rid pid now =
      .ok (true, { s with
        resources := aset s.resources rid
          (if pid ∈ res.waiters then res
           else { res with
                  waiters := res.waiters ++ [pid],
                  waiter_timestamps := aset res.waiter_timestamps pid now })
        processes := aset s.processes pid { proc with waiting_for := some rid } }) := by
  unfold addWaitingProcess
  simp only [hr, hp]

/-- Normal form of a successful `set_resource_owner`. -/
theorem setResourceOwner_eq (s : DState) (rid pid : String) (n : Int)
    (res : Resource) (proc : Process)
    (hr : aget s.resources rid = some res) (hp : aget s.processes pid = some proc)
    (hge : ¬ res.available_instances < n) :
    setResourceOwner s rid pid n =
      .ok (true, { s with
        resources := aset s.resources rid { res with
          allocations := aset res.allocations pid ((aget res.allocations pid).getD 0 + n)
          available_instances := res.available_instances - n
          state := if res.available_instances - n = 0 then "fully_allocated"
                   else "partially_allocated" }
        processes := aset s.processes pid
          (if rid ∈ proc.owns then proc
           else { proc with owns := proc.owns ++ [rid] }) }) := by
  unfold setResourceOwner
  simp only [hr, hp]
  rw [if_neg hge]

/-- C6 (amended): `set_resource_owner` really does preserve the wait
structures (it never touches them), but `add_waiting_process` only
partially mirrors a wait: it sets `process.waiting_for` and puts the
process into `waiters`/`waiter_timestamps`, while the resource's
per-waiter `waiting_for` request-amount map is left exactly as it was —
no entry is recorded for the new waiter (later promotions default its
request to 1). -/
theorem c6_amended_mutators_wait_structures :
    (∀ (s : DState) (rid pid : String) (res : Resource) (proc : Process) (now : Int),
      aget s.resources rid = some res → aget s.processes pid = some proc →
      ∃ s', addWaitingProcess s rid pid now = .ok (true, s') ∧
        (∃ res', aget s'.resources rid = some res' ∧
          res'.waiting_for = res.waiting_for ∧
          pid ∈ res'.waiters ∧
          res'.allocations = res.allocations ∧
          res'.available_instances = res.available_instances ∧
          (pid ∉ res.waiters → res'.waiters = res.waiters ++ [pid] ∧
            aget res'.waiter_timestamps pid = some now)) ∧
        (∃ proc', aget s'.processes pid = some proc' ∧
          proc'.waiting_for = some rid ∧ proc'.owns = proc.owns)) ∧
    (∀ (s : DState) (rid pid : String) (res : Resource) (proc : Process) (n : Int),
      aget s.resources rid = some res → aget s.processes pid = some proc →
      ¬ res.available_instances < n →
      ∃ s', setResourceOwner s rid pid n = .ok (true, s') ∧
        (∃ res', aget s'.resources rid = some res' ∧
          res'.waiters = res.waiters ∧
          res'.waiter_timestamps = res.waiter_timestamps ∧
          res'.waiting_for = res.waiting_for) ∧
        (∃ proc', aget s'.processes pid = some proc' ∧
          proc'.waiting_for = proc.waiting_for)) := by
  constructor
  · intro s rid pid res proc now hr hp
    refine ⟨_, addWaitingProcess_eq s rid pid now res proc hr hp, ?_,
      { proc with waiting_for := some rid }, aget_aset_self _ _ _, rfl, rfl⟩
    by_cases hw : pid ∈ res.waiters
    · refine ⟨res, ?_, rfl, hw, rfl, rfl, fun hnw => absurd hw hnw⟩
      rw [if_pos hw]
      exact aget_aset_self _ _ _
    · refine ⟨{ res with
        waiters := res.waiters ++ [pid],
        waiter_timestamps := aset res.waiter_timestamps pid now }, ?_, rfl, ?_, rfl, rfl,
        fun _ => ⟨rfl, aget_aset_self _ _ _⟩⟩
      · rw [if_neg hw]
        exact aget_aset_self _ _ _
      · simp
  · intro s rid pid res proc n hr hp hge
    refine ⟨_, setResourceOwner_eq s rid pid n res proc hr hp hge,
      ⟨_, aget_aset_self _ _ _, rfl, rfl, rfl⟩, _, aget_aset_self _ _ _, ?_⟩
    by_cases ho : rid ∈ proc.owns
    · rw [if_pos ho]
    · rw [if_neg ho]

/-- C6 amended witness: both mutators applied to a fresh registered
resource/process pair. -/
theorem c6_amended_mutators_wait_structures_witness :
    (∃ s', addWaitingProcess c6base "R" "P" 3 = .ok (true, s')) ∧
    (∃ s', setResourceOwner c6base "R" "P" 1 = .ok (true, s')) := by
  obtain ⟨s', h, -, -⟩ :=
    c6_amended_mutators_wait_structures.1 c6base "R" "P" _ _ 3 rfl rfl
  obtain ⟨s'', h2, -, -⟩ :=
    c6_amended_mutators_wait_structures.2 c6base "R" "P" _ _ 1 rfl rfl (by decide)
  exact ⟨⟨s', h⟩, ⟨s'', h2⟩⟩

/-- C3 (amended): in every state whose processes are exactly `P1` owning
`R1` and waiting on `R2` and `P2` owning `R2` and waiting on `R1` (any
non-empty resource map), the fallback detector returns the single
deadlock once per member process: the two rotations `[P1, P2]` and
`[P2, P1]`, each containing exactly the two deadlocked processes. -/
theorem c3_amended_one_cycle_per_member (rs : List (String × Resource))
    (hrs : rs ≠ []) (p1 p2 r1 r2 : String) (hp : p1 ≠ p2) :
    detectDeadlocks
      { resources := rs,
        processes := [(p1, { owns := [r1], waiting_for := some r2 }),
                      (p2, { owns := [r2], waiting_for := some r1 })] } =
      [[p1, p2], [p2, p1]] := by
  have hp' : p2 ≠ p1 := Ne.symm hp
  have hrs' : rs.isEmpty = false := by
    cases rs with
    | nil => exact absurd rfl hrs
    | cons a l => rfl
  have hwf : buildWaitFor
      [(p1, { owns := [r1], waiting_for := some r2 }),
       (p2, { owns := [r2], waiting_for := some r1 })] = [(p1, [p2]), (p2, [p1])] := by
    simp [buildWaitFor, waitForOwners, aset, aget, hp, hp']
  unfold detectDeadlocks
  rw [hrs']
  simp only [List.isEmpty_cons, Bool.false_or, Bool.or_false, if_neg, Bool.false_eq_true,
    not_false_iff, if_false]
  rw [hwf]
  simp [findCycles, findCycle, aget, hp, hp']

/-- C3 amended witness: the request-protocol-built deadlock state `c3s8`
has exactly the two processes of the scenario, and detection returns the
two rotations. -/
theorem c3_amended_one_cycle_per_member_witness :
    c3s8.processes = [("P1", { owns := ["R1"], waiting_for := some "R2" }),
                      ("P2", { owns := ["R2"], waiting_for := some "R1" })] ∧
    detectDeadlocks
      { resources := c3s8.resources,
        processes := [("P1", { owns := ["R1"], waiting_for := some "R2" }),
                      ("P2", { owns := ["R2"], waiting_for := some "R1" })] } =
      [["P1", "P2"], ["P2", "P1"]] :=
  ⟨rfl, c3_amended_one_cycle_per_member c3s8.resources (by decide) "P1" "P2" "R1" "R2"
    (by decide)⟩

/-- Normal form of the promotion body. -/
theorem promotionStep_eq (res : Resource) (wp : Process) (rid w : String) (needed now : Int) :
    promotionStep res wp rid w needed now =
      ({ res with
         waiters := res.waiters.erase w,
         waiter_timestamps := adel res.waiter_timestamps w,
         waiting_for := adel res.waiting_for w,
         allocations := aset res.allocations w needed,
         available_instances := res.available_instances - needed },
       { wp with
         owns := if rid ∈ wp.owns then wp.owns else wp.owns ++ [rid],
         waiting_for := none },
       { process_id := w, instances := needed, wait_time := 0 }) := by
  unfold promotionStep
  simp only [aget_adel_self]

/-- `waiterOk` unpacked. -/
theorem waiterOk_iff (procs : List (String × Process)) (rid v : String) :
    waiterOk procs rid v = true ↔
      ∃ wp, aget procs v = some wp ∧ wp.waiting_for = some rid := by
  unfold waiterOk
  cases h : aget procs v <;> simp [h]

/-- The promotion scan skips a prefix of waiters that are registered,
waiting on this resource, but whose requests do not fit. -/
theorem promoteWaiters_skips (procs : List (String × Process)) (res : Resource)
    (rid : String) (now : Int) (ws₁ : List String) (rest : List String)
    (h : ∀ v ∈ ws₁, ∃ wp, aget procs v = some wp ∧ wp.waiting_for = some rid ∧
      ¬ res.available_instances ≥ neededOf res v) :
    promoteWaiters procs res rid now (ws₁ ++ rest) =
      promoteWaiters procs res rid now rest := by
  induction ws₁ with
  | nil => rfl
  | cons v ws₁ ih =>
    obtain ⟨wp, hv, hw, hne⟩ := h v (List.mem_cons_self _ _)
    rw [List.cons_append]
    simp only [promoteWaiters, hv]
    rw [if_pos hw, if_neg hne]
    exact ih (fun v hv' => h v (List.mem_cons_of_mem _ hv'))

/-- The promotion scan promotes an eligible waiter at the head and
stops. -/
theorem promoteWaiters_promotes (procs : List (String × Process)) (res : Resource)
    (rid : String) (now : Int) (w : String) (rest : List String) (wp : Process)
    (hv : aget procs w = some wp) (hw : wp.waiting_for = some rid)
    (helig : res.available_instances ≥ neededOf res w) :
    promoteWaiters procs res rid now (w :: rest) =
      ((promotionStep res wp rid w (neededOf res w) now).1,
       aset procs w (promotionStep res wp rid w (neededOf res w) now).2.1,
       some (promotionStep res wp rid w (neededOf res w) now).2.2) := by
  simp only [promoteWaiters, hv]
  rw [if_pos hw, if_pos helig]

/-- C2: a full release whose freed capacity satisfies some waiter
promotes exactly the first waiter in arrival order whose recorded request
fits into the new availability: that waiter is removed from `waiters`,
`waiter_timestamps` and the per-resource `waiting_for` map, its
allocation entry is set to its request, its `waiting_for` becomes `None`,
and no other waiter or process is touched — at most one promotion per
call.  Hypotheses: the releaser holds the resource (`a ≠ 0` instances),
is not itself queued on it, every queued waiter is registered and waiting
on this resource (the spec's wait mirror), the waiters split as
`ws₁ ++ w :: ws₂` with every member of `ws₁` ineligible and `w` eligible
against the post-release availability. -/
theorem c2_release_promotes_first_eligible_waiter
    (s : DState) (pid rid : String) (proc : Process) (res : Resource) (a now : Int)
    (ws₁ ws₂ : List String) (w : String)
    (hp : aget s.processes pid = some proc)
    (hr : aget s.resources rid = some res)
    (howns : rid ∈ proc.owns)
    (halloc : aget res.allocations pid = some a)
    (ha : a ≠ 0)
    (hsplit : res.waiters = ws₁ ++ w :: ws₂)
    (hpw : pid ∉ res.waiters)
    (hmir : ∀ v ∈ res.waiters, waiterOk s.processes rid v = true)
    (hinelig : ∀ v ∈ ws₁, ¬ res.available_instances + a ≥ neededOf res v)
    (helig : res.available_instances + a ≥ neededOf res w) :
    ∃ res' procs',
      releaseResource s pid rid none now =
        .ok (true, { resources := aset s.resources rid res', processes := procs' },
             some { process_id := w, instances := neededOf res w, wait_time := 0 }) ∧
      res'.waiters = ws₁ ++ ws₂ ∧
      aget res'.waiter_timestamps w = none ∧
      aget res'.waiting_for w = none ∧
      aget res'.allocations w = some (neededOf res w) ∧
      res'.available_instances = res.available_instances + a - neededOf res w ∧
      (∀ v, v ≠ w → aget res'.waiter_timestamps v = aget res.waiter_timestamps v) ∧
      (∀ v, v ≠ w → aget res'.waiting_for v = aget res.waiting_for v) ∧
      (∃ wp', aget procs' w = some wp' ∧ wp'.waiting_for = none ∧ rid ∈ wp'.owns) ∧
      (∀ v, v ≠ w → v ≠ pid → aget procs' v = aget s.processes v) := by
  have hwmem : w ∈ res.waiters := by
    rw [hsplit]; exact List.mem_append_right _ (List.mem_cons_self _ _)
  have hwpid : w ≠ pid := fun hc => hpw (hc ▸ hwmem)
  have hw1 : w ∉ ws₁ := fun hc => hinelig w hc helig
  obtain ⟨wp, hwget, hwwait⟩ := (waiterOk_iff s.processes rid w).mp (hmir w hwmem)
  have hwget' :
      aget (aset s.processes pid { proc with owns := proc.owns.erase rid }) w = some wp := by
    rw [aget_aset_ne _ _ _ _ hwpid]; exact hwget
  unfold releaseResource
  simp only [hp, hr, halloc, Option.getD_some]
  rw [if_neg (not_not_intro howns), if_neg ha, if_pos (sub_self a)]
  rw [hsplit]
  rw [show (ws₁ ++ w :: ws₂).isEmpty = false from by
    cases ws₁ <;> rfl]
  simp only [Bool.false_eq_true, if_false]
  rw [promoteWaiters_skips]
  case h =>
    intro v hv
    have hvmem : v ∈ res.waiters := by rw [hsplit]; exact List.mem_append_left _ hv
    have hvpid : v ≠ pid := fun hc => hpw (hc ▸ hvmem)
    obtain ⟨vp, hvget, hvwait⟩ := (waiterOk_iff s.processes rid v).mp (hmir v hvmem)
    refine ⟨vp, ?_, hvwait, hinelig v hv⟩
    rw [aget_aset_ne _ _ _ _ hvpid]; exact hvget
  rw [promoteWaiters_promotes _ _ _ _ _ _ wp hwget' hwwait]
  swap
  · exact helig
  rw [promotionStep_eq]
  refine ⟨_, _, rfl, ?_, aget_adel_self _ _, aget_adel_self _ _,
    aget_aset_self _ _ _, rfl,
    fun v hv => aget_adel_ne _ _ _ hv, fun v hv => aget_adel_ne _ _ _ hv,
    ⟨_, aget_aset_self _ _ _, rfl, ?_⟩,
    fun v hvw hvpid => by rw [aget_aset_ne _ _ _ _ hvw, aget_aset_ne _ _ _ _ hvpid]⟩
  · rw [List.erase_append_right _ hw1, List.erase_cons_head]
  · by_cases ho : rid ∈ wp.owns
    · rw [if_pos ho]; exact ho
    · rw [if_neg ho]; exact List.mem_append_right _ (List.mem_cons_self _ _)

/-- C2 witness: the spec's FIFO scenario — `R` has 1 instance held by
`A`, `B` queued before `C`; releasing by `A` grants `B`, not `C`, and `C`
and everyone else are untouched. -/
theorem c2_release_promotes_first_eligible_waiter_witness :
    ∃ res' procs',
      releaseResource fifoS7 "A" "R" none 9 =
        .ok (true, { resources := aset fifoS7.resources "R" res', processes := procs' },
             some { process_id := "B", instances := neededOf fifoRes "B", wait_time := 0 }) ∧
      res'.waiters = [] ++ ["C"] ∧
      aget res'.allocations "B" = some (neededOf fifoRes "B") ∧
      (∃ wp', aget procs' "B" = some wp' ∧ wp'.waiting_for = none ∧ "R" ∈ wp'.owns) ∧
      (∀ v, v ≠ "B" → v ≠ "A" → aget procs' v = aget fifoS7.processes v) := by
  obtain ⟨res', procs', h1, h2, h3, h4, h5, h6, h7, h8, h9, h10⟩ :=
    c2_release_promotes_first_eligible_waiter fifoS7 "A" "R" fifoProcA fifoRes 1 9 [] ["C"] "B"
      rfl rfl (by decide) rfl (by decide) rfl (by decide) (by decide) (by simp) (by decide)
  exact ⟨res', procs', h1, h2, h5, h9, h10⟩

/-- C10 witness: requesting 5 of the 3 available instances of a fresh
3-instance resource. -/
theorem c10_set_owner_insufficient_available_witness :
    (aget c5fresh.resources "R").map (·.available_instances) = some 3 ∧
    setResourceOwner c5fresh "R" "P" 5 = .ok (false, c5fresh) :=
  ⟨rfl, c10_set_owner_insufficient_available c5fresh "R" "P" _ _ 5 rfl rfl (by decide)⟩

end IPCDebug
